import Mathlib

/-!
Shallow embedding of the Admission & Resource Allocation subsystem of the
proxy_test_app repository.

Embedded source files:
* `fastping-it/proxy-test-app.py` — `IPWhitelistManager` (`add_ip`,
  `remove_ip`, `is_ip_allowed`, `check_rate_limit`).
* `fastping-it/customer_resource_manager.py` — `CustomerResourceManager`
  (`create_customer`, `_allocate_resource`, `cleanup_expired_resources`).
* `fastping-it/ultimate_fastping_app.py` — `UltimateCustomerManager`
  (`is_ip_allowed`, `check_rate_limit`).

Modelling conventions:
* Timestamps and durations are seconds as `Nat` (`datetime.now()` becomes an
  explicit `now` argument; `timedelta(days = d)` becomes `d * 86400`).
* SQLite tables become Lean lists of records; a SQL `UPDATE ... WHERE c`
  becomes a `List.map` guarded by `c`; `SELECT ... LIMIT 1` / SQLAlchemy
  `.first()` becomes `List.find?`.
* The Redis cache becomes an association list from key to payload.  A cached
  value that `json.loads`/`datetime.fromisoformat` would fail on (the inner
  `try`/`except: pass` in both `is_ip_allowed` implementations) is the
  `CacheVal.bad` constructor.
* `ORDER BY RANDOM() LIMIT 1` becomes selection indexed by an arbitrary
  `rand : Nat` taken modulo the number of candidate rows, so theorems
  quantify over every possible random outcome.
* Fallible external effects are explicit booleans: `redisAvail` models the
  module-level `REDIS_AVAILABLE` flag, and `dbOk` models whether the SQLite
  connection succeeds (the `try`/`except` wrappers in the source return
  `False`/`(False, None)` when it does not).
* `uuid.uuid4()` identifiers are caller-supplied arguments (`cid`,
  `allocId`); the `api_key`, `monthly_quota` bookkeeping and the
  email-uniqueness constraint of the `customers` table are carried but play
  no role in the embedded admission/allocation logic.
-/

namespace ProxyTestApp

/-! ### Association-list helpers (Redis keys and SQL rows keyed by a string) -/

def alookup {α : Type} (l : List (String × α)) (k : String) : Option α :=
  (l.find? fun kv => decide (kv.1 = k)).map Prod.snd

def aset {α : Type} (l : List (String × α)) (k : String) (v : α) :
    List (String × α) :=
  (k, v) :: l.filter fun kv => decide (kv.1 ≠ k)

def adel {α : Type} (l : List (String × α)) (k : String) : List (String × α) :=
  l.filter fun kv => decide (kv.1 ≠ k)

/-! ### IP-address syntax

`add_ip` begins with `ipaddress.ip_address(ip_address)`, which raises (and so
makes `add_ip` return `False`) unless the string is a syntactically valid
IPv4 or IPv6 address.  The grammar below follows Python's `ipaddress`
module: IPv4 is four decimal octets `0..255` with no leading zeros; IPv6 is
eight 1-4 digit hex groups, with at most one `::` compression standing for
at least one zero group, and an optional embedded IPv4 tail counting as two
groups. -/

def splitOnChar (sep : Char) : List Char → List (List Char)
  | [] => [[]]
  | c :: cs =>
    match splitOnChar sep cs with
    | [] => if c = sep then [[], []] else [[c]]
    | g :: gs => if c = sep then [] :: g :: gs else (c :: g) :: gs

def octetVal (g : List Char) : Nat :=
  g.foldl (fun n c => 10 * n + (c.toNat - '0'.toNat)) 0

def isValidOctet (g : List Char) : Bool :=
  match g with
  | [] => false
  | c :: cs =>
    (c :: cs).all Char.isDigit && decide ((c :: cs).length ≤ 3) &&
      (decide (cs = []) || decide (c ≠ '0')) && decide (octetVal (c :: cs) ≤ 255)

def isValidIPv4 (l : List Char) : Bool :=
  (splitOnChar '.' l).length = 4 && (splitOnChar '.' l).all isValidOctet

def isHexChar (c : Char) : Bool :=
  c.isDigit || ('a' ≤ c && c ≤ 'f') || ('A' ≤ c && c ≤ 'F')

def isHexGroup (g : List Char) : Bool :=
  decide (1 ≤ g.length) && decide (g.length ≤ 4) && g.all isHexChar

/-- Number of 16-bit groups contributed by a colon-separated fragment whose
last element may be an embedded IPv4 address; `none` if malformed. -/
def tailGroupsCount (gs : List (List Char)) : Option Nat :=
  match gs.reverse with
  | [] => some 0
  | lastG :: revInit =>
    if revInit.all isHexGroup then
      if isHexGroup lastG then some gs.length
      else if isValidIPv4 lastG then some (gs.length + 1)
      else none
    else none

/-- Split at the first `::`, returning the characters before and after it. -/
def findDoubleColon : List Char → Option (List Char × List Char)
  | [] => none
  | ':' :: ':' :: rest => some ([], rest)
  | c :: rest => (findDoubleColon rest).map fun p => (c :: p.1, p.2)

def isValidIPv6 (l : List Char) : Bool :=
  match findDoubleColon l with
  | none =>
    match tailGroupsCount (splitOnChar ':' l) with
    | some n => decide (n = 8)
    | none => false
  | some (left, right) =>
    if (findDoubleColon right).isSome then false
    else
      match (if right = [] then some 0 else tailGroupsCount (splitOnChar ':' right)) with
      | none => false
      | some rn =>
        (if left = [] then true else (splitOnChar ':' left).all isHexGroup) &&
          decide ((if left = [] then 0 else (splitOnChar ':' left).length) + rn ≤ 7)

def isValidIp (s : String) : Bool :=
  isValidIPv4 s.toList || isValidIPv6 s.toList

/-! ### Whitelist data model (`proxy-test-app.py`, `IPWhitelistManager`) -/

/-- One row of the `ip_whitelist` table (`ip_address` is UNIQUE). -/
structure WhitelistRow where
  ip_address : String
  customer_id : String
  plan_type : String
  rate_limit : Nat
  expires_at : Nat
  is_active : Bool
  notes : String
deriving DecidableEq

/-- The JSON payload stored under a `whitelist:{ip}` Redis key. -/
structure CacheEntry where
  customer_id : String
  plan_type : String
  rate_limit : Nat
  expires_at : Nat
deriving DecidableEq

/-- A cached Redis value: either a well-formed payload, or data on which the
`json.loads` / `datetime.fromisoformat` step inside the swallowed
`try`/`except` of `is_ip_allowed` would fail. -/
inductive CacheVal where
  | good (e : CacheEntry)
  | bad
deriving DecidableEq

/-- Durable whitelist table plus the Redis whitelist cache. -/
structure WlState where
  table : List WhitelistRow
  cache : List (String × CacheVal)
deriving DecidableEq

/-- `IPWhitelistManager.add_ip`: validate the IP syntax (`ipaddress.ip_address`
raises on bad input), `INSERT OR REPLACE` the row keyed by `ip_address` with
`expires_at = now + expires_days` and the default `is_active = 1`, then warm
the Redis cache when available.  `dbOk = false` models the SQLite connection
failing, which the surrounding `except` turns into `False` with no write. -/
def addIp (st : WlState) (redisAvail dbOk : Bool) (ip cid plan : String)
    (rateLimit expiresDays : Nat) (notes : String) (now : Nat) : Bool × WlState :=
  if isValidIp ip && dbOk then
    (true,
     { table := { ip_address := ip, customer_id := cid, plan_type := plan,
                  rate_limit := rateLimit, expires_at := now + expiresDays * 86400,
                  is_active := true, notes := notes } ::
                (st.table.filter fun r => decide (r.ip_address ≠ ip)),
       cache := if redisAvail then
                  aset st.cache ip (CacheVal.good
                    { customer_id := cid, plan_type := plan, rate_limit := rateLimit,
                      expires_at := now + expiresDays * 86400 })
                else st.cache })
  else (false, st)

/-- `IPWhitelistManager.remove_ip`: `UPDATE ip_whitelist SET is_active = 0`
for the row, and delete the Redis key when the cache is available. -/
def removeIp (st : WlState) (redisAvail dbOk : Bool) (ip : String) : Bool × WlState :=
  if dbOk then
    (true,
     { table := st.table.map fun r =>
         if r.ip_address = ip then { r with is_active := false } else r,
       cache := if redisAvail then adel st.cache ip else st.cache })
  else (false, st)

/-- The Redis fast path of `is_ip_allowed`: a hit is honoured only when the
payload parses and its `expires_at` lies in the future; expired or
malformed payloads are treated as a miss. -/
def cacheValidHit (cache : List (String × CacheVal)) (redisAvail : Bool)
    (ip : String) (now : Nat) : Option CacheEntry :=
  if redisAvail then
    match alookup cache ip with
    | some (CacheVal.good e) => if now < e.expires_at then some e else none
    | _ => none
  else none

/-- `IPWhitelistManager.is_ip_allowed` (`proxy-test-app.py`): Redis cache
first; on miss query the `ip_whitelist` table for an `is_active = 1` row,
honour it only when unexpired and write it through to the cache.  Any
database exception (modelled by `dbOk = false`) is caught and yields
`(False, None)`. -/
def isIpAllowed (st : WlState) (redisAvail dbOk : Bool) (ip : String) (now : Nat) :
    (Bool × Option CacheEntry) × WlState :=
  match cacheValidHit st.cache redisAvail ip now with
  | some e => ((true, some e), st)
  | none =>
    if dbOk then
      match st.table.find? (fun r => decide (r.ip_address = ip) && r.is_active) with
      | some r =>
        if now < r.expires_at then
          ((true, some { customer_id := r.customer_id, plan_type := r.plan_type,
                         rate_limit := r.rate_limit, expires_at := r.expires_at }),
           { st with cache :=
               (if redisAvail then
                  aset st.cache ip (CacheVal.good
                    { customer_id := r.customer_id, plan_type := r.plan_type,
                      rate_limit := r.rate_limit, expires_at := r.expires_at })
                else st.cache) })
        else ((false, none), st)
      | none => ((false, none), st)
    else ((false, none), st)

/-! ### Rate limiting (`proxy-test-app.py`, `check_rate_limit`) -/

/-- Rate-limit state: the Redis `rate_limit:{ip}` counters (count paired with
the absolute expiry instant set by `EXPIRE key 60`), and the SQLite
`rate_limits` table rows `(requests_count, window_start)`. -/
structure RlState where
  redisCounters : List (String × Nat × Nat)
  dbRows : List (String × Nat × Nat)
deriving DecidableEq

/-- Redis `INCR` followed by `EXPIRE key 60` when the new count is 1; a key
whose expiry has passed no longer exists, so `INCR` recreates it at 1. -/
def redisIncr (rc : List (String × Nat × Nat)) (ip : String) (now : Nat) :
    Nat × List (String × Nat × Nat) :=
  match alookup rc ip with
  | some (c, exp) =>
    if now < exp then (c + 1, aset rc ip (c + 1, exp))
    else (1, aset rc ip (1, now + 60))
  | none => (1, aset rc ip (1, now + 60))

/-- The SQLite branch of `check_rate_limit`: reset the row to `(1, now)` when
the window is older than 60 seconds, otherwise increment the count; a
missing row is inserted as `(1, now)`. -/
def dbRateUpdate (row : Option (Nat × Nat)) (now : Nat) : Nat × Nat :=
  match row with
  | some (c, s) => if now - s > 60 then (1, now) else (c + 1, s)
  | none => (1, now)

/-- `IPWhitelistManager.check_rate_limit`: increment-then-compare, allowing
the request iff the updated count is at most `rateLimit`.  With Redis it
uses `INCR`/`EXPIRE`; without Redis it performs the read-modify-write
against the `rate_limits` table. -/
def checkRateLimit (redisAvail : Bool) (st : RlState) (ip : String)
    (rateLimit now : Nat) : Bool × RlState :=
  if redisAvail then
    (decide ((redisIncr st.redisCounters ip now).1 ≤ rateLimit),
     { st with redisCounters := (redisIncr st.redisCounters ip now).2 })
  else
    (decide ((dbRateUpdate (alookup st.dbRows ip) now).1 ≤ rateLimit),
     { st with dbRows := aset st.dbRows ip (dbRateUpdate (alookup st.dbRows ip) now) })

/-- Iterate `check_rate_limit` for one IP over a list of request times,
collecting the allow/deny verdicts. -/
def rateResults (redisAvail : Bool) (st : RlState) (ip : String) (rateLimit : Nat) :
    List Nat → List Bool × RlState
  | [] => ([], st)
  | t :: ts =>
    ((checkRateLimit redisAvail st ip rateLimit t).1 ::
       (rateResults redisAvail (checkRateLimit redisAvail st ip rateLimit t).2 ip rateLimit ts).1,
     (rateResults redisAvail (checkRateLimit redisAvail st ip rateLimit t).2 ip rateLimit ts).2)

/-- The request count currently recorded for `ip` in whichever store
`check_rate_limit` is using. -/
def currentCount (redisAvail : Bool) (st : RlState) (ip : String) : Option Nat :=
  if redisAvail then (alookup st.redisCounters ip).map fun r => r.1
  else (alookup st.dbRows ip).map fun r => r.1

/-! ### Resource allocator (`customer_resource_manager.py`) -/

/-- `ResourceType` enum. -/
inductive ResourceType where
  | ip_only
  | ip_port
  | port_range
deriving DecidableEq

/-- One row of the `resource_pools` table. -/
structure PoolEntry where
  pool_id : Nat
  ip_address : String
  port_start : Option Nat
  port_end : Option Nat
  resource_type : ResourceType
  is_available : Bool
  reserved_for_plan : Option String
deriving DecidableEq

/-- One row of the `resource_allocations` table. -/
structure AllocationRow where
  allocation_id : Nat
  customer_id : String
  ip_address : String
  port_start : Option Nat
  port_end : Option Nat
  resource_type : ResourceType
  expires_at : Nat
  is_active : Bool
deriving DecidableEq

/-- One row of the `customers` table (fields the core logic touches). -/
structure CustomerRow where
  customer_id : String
  email : String
  company_name : String
  plan_type : String
  status : String
  monthly_quota : Nat
deriving DecidableEq

/-- The customer-resources database (`customer_resources.db`). -/
structure CrmState where
  pools : List PoolEntry
  allocations : List AllocationRow
  customers : List CustomerRow
deriving DecidableEq

/-- Plan-to-resource-type mapping at the top of `_allocate_resource`. -/
def planResourceType (plan : String) : ResourceType :=
  if plan = "basic" then ResourceType.ip_only
  else if plan = "premium" then ResourceType.ip_port
  else ResourceType.port_range

/-- The `rate_limits` dict of `create_customer` / `admin_add_ip`. -/
def rateLimitFor (plan : String) : Nat :=
  if plan = "basic" then 100
  else if plan = "premium" then 500
  else if plan = "enterprise" then 2000
  else 100

/-- The `quotas` dict of `create_customer`. -/
def quotaFor (plan : String) : Nat :=
  if plan = "basic" then 10000
  else if plan = "premium" then 50000
  else if plan = "enterprise" then 200000
  else 10000

/-- The `SELECT ... WHERE resource_type = ? AND is_available = 1 AND
(reserved_for_plan = ? OR reserved_for_plan IS NULL)` candidate rows of
`_allocate_resource`. -/
def eligiblePools (pools : List PoolEntry) (plan : String) : List PoolEntry :=
  pools.filter fun p =>
    decide (p.resource_type = planResourceType plan) && p.is_available &&
      (decide (p.reserved_for_plan = some plan) || decide (p.reserved_for_plan = none))

/-- `CustomerResourceManager._allocate_resource`: pick one eligible pool row
(`ORDER BY RANDOM() LIMIT 1`, modelled by index `rand` modulo the candidate
count), mark exactly that row unavailable by `pool_id`, and insert an
allocation row expiring 30 days out.  Returns `none` (no fallback of any
kind) when no eligible row exists. -/
def allocateResource (st : CrmState) (cid plan : String) (rand allocId now : Nat) :
    Option AllocationRow × CrmState :=
  match (eligiblePools st.pools plan).get?
      (rand % (eligiblePools st.pools plan).length) with
  | none => (none, st)
  | some p =>
    (some { allocation_id := allocId, customer_id := cid,
            ip_address := p.ip_address, port_start := p.port_start,
            port_end := p.port_end, resource_type := planResourceType plan,
            expires_at := now + 30 * 86400, is_active := true },
     { st with
        pools := st.pools.map fun q =>
          if q.pool_id = p.pool_id then { q with is_available := false } else q,
        allocations :=
          { allocation_id := allocId, customer_id := cid,
            ip_address := p.ip_address, port_start := p.port_start,
            port_end := p.port_end, resource_type := planResourceType plan,
            expires_at := now + 30 * 86400, is_active := true } :: st.allocations })

/-- Combined state of the allocator database and the whitelist subsystem that
`create_customer` and `cleanup_expired_resources` mirror into. -/
structure SysState where
  crm : CrmState
  wl : WlState
deriving DecidableEq

def newCustomerRow (email company plan cid : String) : CustomerRow :=
  { customer_id := cid, email := email, company_name := company,
    plan_type := plan, status := "active", monthly_quota := quotaFor plan }

/-- `CustomerResourceManager.create_customer`: insert the customer row and
allocate a resource inside one transaction; mirror the allocated IP into the
whitelist via `whitelist_manager.add_ip` (rate limit from the plan, 30-day
expiry); commit only if every step succeeded, rolling the transaction back
(dropping the customer row, the allocation row and the pool update) when
allocation or whitelisting fails. -/
def createCustomer (st : SysState) (redisAvail wlDbOk : Bool)
    (email company plan cid : String) (rand allocId now : Nat) :
    (Bool × String) × SysState :=
  match allocateResource
      { st.crm with customers := newCustomerRow email company plan cid :: st.crm.customers }
      cid plan rand allocId now with
  | (none, _) => ((false, "No available resources for plan type"), st)
  | (some r, crm2) =>
    if (addIp st.wl redisAvail wlDbOk r.ip_address cid plan (rateLimitFor plan) 30
          ("Auto-allocated for " ++ email) now).1 then
      ((true, cid),
       { crm := crm2,
         wl := (addIp st.wl redisAvail wlDbOk r.ip_address cid plan (rateLimitFor plan) 30
                  ("Auto-allocated for " ++ email) now).2 })
    else
      ((false, "Failed to add to whitelist"),
       { st with
         wl := (addIp st.wl redisAvail wlDbOk r.ip_address cid plan (rateLimitFor plan) 30
                  ("Auto-allocated for " ++ email) now).2 })

/-- The loop body of `cleanup_expired_resources` for one expired allocation:
`UPDATE resource_allocations SET is_active = 0 WHERE allocation_id = ?`,
`UPDATE resource_pools SET is_available = 1 WHERE ip_address = ?` (note: by
IP address, not by pool id), then `whitelist_manager.remove_ip(ip)`. -/
def releaseOne (st : SysState) (redisAvail wlDbOk : Bool) (aid : Nat) (ip : String) :
    SysState :=
  { crm := { st.crm with
      allocations := st.crm.allocations.map fun a =>
        if a.allocation_id = aid then { a with is_active := false } else a,
      pools := st.crm.pools.map fun p =>
        if p.ip_address = ip then { p with is_available := true } else p },
    wl := (removeIp st.wl redisAvail wlDbOk ip).2 }

/-- `CustomerResourceManager.cleanup_expired_resources`: release every
allocation with `expires_at < now AND is_active = 1`. -/
def cleanupExpiredResources (st : SysState) (redisAvail wlDbOk : Bool) (now : Nat) :
    SysState :=
  (st.crm.allocations.filter fun a => a.is_active && decide (a.expires_at < now)).foldl
    (fun s a => releaseOne s redisAvail wlDbOk a.allocation_id a.ip_address) st

/-- The active allocations referencing a pool entry's (ip_address,
port_range) pair — the relation in the spec's pool-availability
invariant. -/
def activeRefs (crm : CrmState) (p : PoolEntry) : List AllocationRow :=
  crm.allocations.filter fun a =>
    a.is_active && decide (a.ip_address = p.ip_address) &&
      decide (a.port_start = p.port_start) && decide (a.port_end = p.port_end)

/-- The spec's pool-availability invariant: `available = false` iff exactly
one active allocation references the entry's (ip_address, port_range). -/
def poolInvariantHolds (crm : CrmState) : Bool :=
  crm.pools.all fun p =>
    decide ((p.is_available = false) ↔ (activeRefs crm p).length = 1)

/-! ### Ultimate app (`ultimate_fastping_app.py`, `UltimateCustomerManager`) -/

/-- State read by `ultimate_fastping_app.is_ip_allowed`: the Redis whitelist
cache, the SQLAlchemy `ResourceAllocation` rows and the `Customer` rows. -/
structure UltState where
  cache : List (String × CacheVal)
  allocations : List AllocationRow
  customers : List CustomerRow
deriving DecidableEq

/-- `UltimateCustomerManager.is_ip_allowed`: Redis cache first (expired or
malformed payloads fall through), then the active `ResourceAllocation` row
for the IP; allowed only when the allocation is unexpired and its customer
has status `active`, writing the derived payload through to the cache. -/
def ultimateIsIpAllowed (st : UltState) (redisAvail : Bool) (ip : String) (now : Nat) :
    (Bool × Option CacheEntry) × UltState :=
  match cacheValidHit st.cache redisAvail ip now with
  | some e => ((true, some e), st)
  | none =>
    match st.allocations.find? (fun a => decide (a.ip_address = ip) && a.is_active) with
    | some a =>
      if now < a.expires_at then
        match st.customers.find? (fun c => decide (c.customer_id = a.customer_id)) with
        | some c =>
          if c.status = "active" then
            ((true, some { customer_id := c.customer_id, plan_type := c.plan_type,
                           rate_limit := rateLimitFor c.plan_type,
                           expires_at := a.expires_at }),
             { st with cache :=
                 (if redisAvail then
                    aset st.cache ip (CacheVal.good
                      { customer_id := c.customer_id, plan_type := c.plan_type,
                        rate_limit := rateLimitFor c.plan_type,
                        expires_at := a.expires_at })
                  else st.cache) })
          else ((false, none), st)
        | none => ((false, none), st)
      else ((false, none), st)
    | none => ((false, none), st)

/-- `UltimateCustomerManager.check_rate_limit`: with Redis, the same
`INCR`/`EXPIRE` counter as `proxy-test-app.py`; without Redis it returns
`True` unconditionally ("No rate limiting without Redis"). -/
def ultimateCheckRateLimit (redisAvail : Bool) (rc : List (String × Nat × Nat))
    (ip : String) (rateLimit now : Nat) : Bool × List (String × Nat × Nat) :=
  if redisAvail then
    (decide ((redisIncr rc ip now).1 ≤ rateLimit), (redisIncr rc ip now).2)
  else (true, rc)

/-- Iterate `ultimate_fastping_app.check_rate_limit` over request times. -/
def ultimateRateRun (redisAvail : Bool) (rc : List (String × Nat × Nat))
    (ip : String) (rateLimit : Nat) : List Nat → List Bool × List (String × Nat × Nat)
  | [] => ([], rc)
  | t :: ts =>
    ((ultimateCheckRateLimit redisAvail rc ip rateLimit t).1 ::
       (ultimateRateRun redisAvail (ultimateCheckRateLimit redisAvail rc ip rateLimit t).2
          ip rateLimit ts).1,
     (ultimateRateRun redisAvail (ultimateCheckRateLimit redisAvail rc ip rateLimit t).2
        ip rateLimit ts).2)

/-! ### Concrete pool and operation traces

`init_resource_pools` seeds, for each host of `10.0.1.0/24` up to `.10`, both
an IP-only `basic` pool row and IP+port `premium` pool rows on the same IP
address, so distinct pool rows genuinely share an `ip_address`.  The trace
below exercises that overlap: `cust_A` (premium, allocated at time 0) and
`cust_B` (basic, allocated at time 5, five seconds later) hold the two pool
rows of `10.0.1.1`; the reclamation sweep at time 2592001 (just past
`cust_A`'s 30-day lease) then releases `cust_A`, and `cust_C` (basic) is
provisioned immediately afterwards. -/

def poolA : PoolEntry :=
  { pool_id := 1, ip_address := "10.0.1.1", port_start := none, port_end := none,
    resource_type := ResourceType.ip_only, is_available := true,
    reserved_for_plan := some "basic" }

def poolB : PoolEntry :=
  { pool_id := 2, ip_address := "10.0.1.1", port_start := some 8000,
    port_end := some 8999, resource_type := ResourceType.ip_port,
    is_available := true, reserved_for_plan := some "premium" }

def sys0 : SysState := ⟨⟨[poolA, poolB], [], []⟩, ⟨[], []⟩⟩

def sysStep1 : SysState :=
  (createCustomer sys0 false true "a@example.com" "" "premium" "cust_A" 0 100 0).2

def sysStep2 : SysState :=
  (createCustomer sysStep1 false true "b@example.com" "" "basic" "cust_B" 0 101 5).2

def sysStep3 : SysState := cleanupExpiredResources sysStep2 false true 2592001

def sysStep4 : SysState :=
  (createCustomer sysStep3 false true "c@example.com" "" "basic" "cust_C" 0 102 2592001).2

/-! ### Theorems -/

theorem alookup_aset_self {α : Type} (l : List (String × α)) (k : String) (v : α) :
    alookup (aset l k v) k = some v := by
  unfold alookup aset
  rw [List.find?_cons_of_pos _ (by simp)]
  rfl

/-- C1.  Allocation uniqueness fails on the code: in the four-operation trace
(allocate premium `cust_A` at time 0, allocate basic `cust_B` at time 5,
reclamation sweep at time 2592001, allocate basic `cust_C` at time 2592001)
the final state holds TWO active allocations — for `cust_C` and `cust_B` —
referencing the same (10.0.1.1, no-port) pool entry, because the sweep
re-marked every pool row sharing `cust_A`'s IP address available and a later
allocate re-selected `cust_B`'s still-active entry. -/
theorem allocation_uniqueness_violated :
    ((sysStep4.crm.allocations.filter fun a =>
        a.is_active && decide (a.ip_address = "10.0.1.1") &&
          decide (a.port_start = (none : Option Nat)) &&
          decide (a.port_end = (none : Option Nat))).map fun a => a.customer_id) =
      ["cust_C", "cust_B"] := by decide

/-- C2.  The pool-availability invariant (`available = false` iff exactly one
active allocation references the entry's (ip_address, port_range)) holds
after the two allocations of the trace but is destroyed by
`cleanup_expired_resources`, whose `UPDATE resource_pools SET is_available =
1 WHERE ip_address = ?` flips every pool row sharing the expired
allocation's IP — including the row still referenced by `cust_B`'s active
allocation. -/
theorem pool_invariant_violated :
    poolInvariantHolds sysStep2.crm = true ∧ poolInvariantHolds sysStep3.crm = false := by
  decide

/-- C3 counterexample.  With a pool holding one available `ip_only` entry,
`_allocate_resource` for a `premium` customer returns no allocation at all:
contrary to the claim, there is no fallback from the exact tier to an
available `ip_only` resource before failing. -/
theorem tier_fallback_counterexample :
    (allocateResource ⟨[poolA], [], []⟩ "cust_X" "premium" 0 7 0).1 = none ∧
      poolA.is_available = true ∧ poolA.resource_type = ResourceType.ip_only := by
  decide

/-- C8 counterexample.  `ultimate_fastping_app.check_rate_limit` with Redis
unavailable allows three requests at times 0, 1, 2 for rate limit 1: the
second and third requests exceed the limit inside one 60-second window yet
are still allowed, so rate limiting IS simply skipped in cache-unavailable
mode there. -/
theorem degraded_rate_limit_counterexample :
    (ultimateRateRun false [] "10.0.1.5" 1 [0, 1, 2]).1 = [true, true, true] := by
  decide

/-- If every well-formed cached payload for `ip` is already expired, the
cache lookup step of admission yields a miss. -/
theorem cacheValidHit_eq_none (cache : List (String × CacheVal)) (ra : Bool)
    (ip : String) (now : Nat)
    (h : ∀ e : CacheEntry, alookup cache ip = some (CacheVal.good e) → e.expires_at ≤ now) :
    cacheValidHit cache ra ip now = none := by
  unfold cacheValidHit
  cases ra with
  | false => simp
  | true =>
    simp only [if_true]
    cases hc : alookup cache ip with
    | none => rfl
    | some v =>
      cases v with
      | bad => rfl
      | good e =>
        have he := h e hc
        have hlt : ¬ now < e.expires_at := by omega
        simp [hlt]

/-- C10.  `add_ip` validates its input: for every string that is not a
syntactically valid IPv4 or IPv6 address it returns `False` and leaves both
the whitelist table and the cache unchanged, and it can only succeed (and
hence insert) on a syntactically valid address. -/
theorem add_ip_input_validation (st : WlState) (ra dbOk : Bool) (ip cid plan : String)
    (rl days : Nat) (notes : String) (now : Nat) :
    (isValidIp ip = false → addIp st ra dbOk ip cid plan rl days notes now = (false, st)) ∧
    ((addIp st ra dbOk ip cid plan rl days notes now).1 = true → isValidIp ip = true) := by
  constructor
  · intro h
    simp [addIp, h]
  · intro h
    cases hvalid : isValidIp ip with
    | true => rfl
    | false => simp [addIp, hvalid] at h

/-- C10 witness: the development-mode call `add_ip('localhost', 'dev-002',
'enterprise', 2000, 365, 'Localhost testing')` from `__main__` fails and
writes nothing. -/
theorem add_ip_input_validation_witness :
    addIp ⟨[], []⟩ true true "localhost" "dev-002" "enterprise" 2000 365
        "Localhost testing" 0 = (false, ⟨[], []⟩) :=
  (add_ip_input_validation ⟨[], []⟩ true true "localhost" "dev-002" "enterprise" 2000 365
      "Localhost testing" 0).1 (by decide)

/-- C4.  Admission fails closed: whenever the durable store errors during the
whitelist lookup (`dbOk = false`) and the cache holds no valid entry for the
IP, `is_ip_allowed` returns `(False, None)` — for every IP, whitelisted
before or not; and a cache error alone (a malformed cached payload) merely
falls through to the durable store, which still allows a valid unexpired
row. -/
theorem fail_closed_admission (st : WlState) (ra : Bool) (ip : String) (now : Nat) :
    (cacheValidHit st.cache ra ip now = none →
      (isIpAllowed st ra false ip now).1 = (false, none)) ∧
    (∀ r : WhitelistRow,
      alookup st.cache ip = some CacheVal.bad →
      st.table.find? (fun r' => decide (r'.ip_address = ip) && r'.is_active) = some r →
      now < r.expires_at →
      (isIpAllowed st true true ip now).1 =
        (true, some { customer_id := r.customer_id, plan_type := r.plan_type,
                      rate_limit := r.rate_limit, expires_at := r.expires_at })) := by
  constructor
  · intro h
    simp [isIpAllowed, h]
  · intro r hc hf hexp
    have hch : cacheValidHit st.cache true ip now = none := by
      simp [cacheValidHit, hc]
    simp [isIpAllowed, hch, hf, hexp]

/-- C4 witness: with a malformed cached payload for `1.2.3.4` and an
unexpired whitelist row, admission denies when the store is down and allows
via the durable fallback when it is up. -/
theorem fail_closed_admission_witness :
    (isIpAllowed ⟨[⟨"1.2.3.4", "c7", "basic", 100, 100, true, ""⟩],
        [("1.2.3.4", CacheVal.bad)]⟩ true false "1.2.3.4" 0).1 = (false, none) ∧
    (isIpAllowed ⟨[⟨"1.2.3.4", "c7", "basic", 100, 100, true, ""⟩],
        [("1.2.3.4", CacheVal.bad)]⟩ true true "1.2.3.4" 0).1 =
      (true, some ⟨"c7", "basic", 100, 100⟩) :=
  ⟨(fail_closed_admission ⟨[⟨"1.2.3.4", "c7", "basic", 100, 100, true, ""⟩],
      [("1.2.3.4", CacheVal.bad)]⟩ true "1.2.3.4" 0).1 (by decide),
   (fail_closed_admission ⟨[⟨"1.2.3.4", "c7", "basic", 100, 100, true, ""⟩],
      [("1.2.3.4", CacheVal.bad)]⟩ true "1.2.3.4" 0).2
     ⟨"1.2.3.4", "c7", "basic", 100, 100, true, ""⟩ (by decide) (by decide) (by decide)⟩

/-- C6.  Expiry safety: when every stored representation of an IP (cached
payload, whitelist row, allocation row) has `expires_at` in the past, both
`proxy-test-app.is_ip_allowed` and `ultimate_fastping_app.is_ip_allowed`
deny, for every cache-availability and store-availability setting; and a
cache hit whose `expires_at` is not in the future is treated as a miss that
falls through to the durable registry, which can still allow on an
unexpired row. -/
theorem expiry_safety (st : WlState) (ra dbOk : Bool) (ust : UltState) (ra2 : Bool)
    (ip : String) (now : Nat) :
    ((∀ e : CacheEntry, alookup st.cache ip = some (CacheVal.good e) → e.expires_at ≤ now) →
     (∀ r : WhitelistRow, r ∈ st.table → r.ip_address = ip → r.expires_at ≤ now) →
     (isIpAllowed st ra dbOk ip now).1.1 = false) ∧
    ((∀ e : CacheEntry, alookup ust.cache ip = some (CacheVal.good e) → e.expires_at ≤ now) →
     (∀ a : AllocationRow, a ∈ ust.allocations → a.ip_address = ip → a.expires_at ≤ now) →
     (ultimateIsIpAllowed ust ra2 ip now).1.1 = false) ∧
    (∀ (e : CacheEntry) (r : WhitelistRow),
      alookup st.cache ip = some (CacheVal.good e) → e.expires_at ≤ now →
      st.table.find? (fun r' => decide (r'.ip_address = ip) && r'.is_active) = some r →
      now < r.expires_at →
      (isIpAllowed st true true ip now).1.1 = true) := by
  refine ⟨?_, ?_, ?_⟩
  · intro hcache htable
    have hch := cacheValidHit_eq_none st.cache ra ip now hcache
    simp only [isIpAllowed, hch]
    cases dbOk with
    | false => rfl
    | true =>
      simp only [if_true]
      cases hf : st.table.find? (fun r' => decide (r'.ip_address = ip) && r'.is_active) with
      | none => rfl
      | some r =>
        have hm := List.mem_of_find?_eq_some hf
        have hp := List.find?_some hf
        simp only [Bool.and_eq_true, decide_eq_true_eq] at hp
        have hr := htable r hm hp.1
        have hlt : ¬ now < r.expires_at := by omega
        simp [hlt]
  · intro hcache halloc
    have hch := cacheValidHit_eq_none ust.cache ra2 ip now hcache
    simp only [ultimateIsIpAllowed, hch]
    cases hf : ust.allocations.find? (fun a => decide (a.ip_address = ip) && a.is_active) with
    | none => rfl
    | some a =>
      have hm := List.mem_of_find?_eq_some hf
      have hp := List.find?_some hf
      simp only [Bool.and_eq_true, decide_eq_true_eq] at hp
      have ha := halloc a hm hp.1
      have hlt : ¬ now < a.expires_at := by omega
      simp [hlt]
  · intro e r hc hexp hf hr
    have hch : cacheValidHit st.cache true ip now = none := by
      have hlt : ¬ now < e.expires_at := by omega
      simp [cacheValidHit, hc, hlt]
    simp [isIpAllowed, hch, hf, hr]

/-- C6 witness: a row for `9.9.9.9` that expired at time 50 is denied at time
100 by both implementations even while cached, and an expired cached payload
for `7.7.7.7` with a live whitelist row falls through and is allowed. -/
theorem expiry_safety_witness :
    (isIpAllowed ⟨[⟨"9.9.9.9", "c1", "basic", 100, 50, true, ""⟩],
        [("9.9.9.9", CacheVal.good ⟨"c1", "basic", 100, 50⟩)]⟩ true true "9.9.9.9" 100).1.1 =
      false ∧
    (ultimateIsIpAllowed ⟨[("8.8.8.8", CacheVal.good ⟨"c2", "basic", 100, 50⟩)],
        [⟨1, "c2", "8.8.8.8", none, none, ResourceType.ip_only, 50, true⟩],
        [⟨"c2", "e@x.com", "", "basic", "active", 10000⟩]⟩ true "8.8.8.8" 100).1.1 = false ∧
    (isIpAllowed ⟨[⟨"7.7.7.7", "c3", "basic", 100, 200, true, ""⟩],
        [("7.7.7.7", CacheVal.good ⟨"c3", "basic", 100, 50⟩)]⟩ true true "7.7.7.7" 100).1.1 =
      true :=
  ⟨(expiry_safety ⟨[⟨"9.9.9.9", "c1", "basic", 100, 50, true, ""⟩],
      [("9.9.9.9", CacheVal.good ⟨"c1", "basic", 100, 50⟩)]⟩ true true
      ⟨[], [], []⟩ true "9.9.9.9" 100).1
     (by intro e he; simp [alookup] at he; subst he; decide)
     (by intro r hr hip; simp at hr; subst hr; decide),
   ((expiry_safety ⟨[], []⟩ true true
      ⟨[("8.8.8.8", CacheVal.good ⟨"c2", "basic", 100, 50⟩)],
        [⟨1, "c2", "8.8.8.8", none, none, ResourceType.ip_only, 50, true⟩],
        [⟨"c2", "e@x.com", "", "basic", "active", 10000⟩]⟩ true "8.8.8.8" 100).2).1
     (by intro e he; simp [alookup] at he; subst he; decide)
     (by intro a ha hip; simp at ha; subst ha; decide),
   ((expiry_safety ⟨[⟨"7.7.7.7", "c3", "basic", 100, 200, true, ""⟩],
      [("7.7.7.7", CacheVal.good ⟨"c3", "basic", 100, 50⟩)]⟩ true true
      ⟨[], [], []⟩ true "7.7.7.7" 100).2).2
     ⟨"c3", "basic", 100, 50⟩ ⟨"7.7.7.7", "c3", "basic", 100, 200, true, ""⟩
     (by decide) (by decide) (by decide) (by decide)⟩

/-- C3 amended.  `_allocate_resource` selects only from pool entries with
`is_available = 1` whose `resource_type` equals the type derived from the
plan (basic → ip_only, premium → ip_port, otherwise port_range) and whose
`reserved_for_plan` is the requested plan or NULL; it performs NO fallback:
it returns no allocation exactly when that candidate set is empty, leaving
the state unchanged, and in that case `create_customer` rolls back and
returns the failure `"No available resources for plan type"` with no
allocation made. -/
theorem tier_selection_no_fallback (st : CrmState) (cid plan : String)
    (rand allocId now : Nat) :
    ((allocateResource st cid plan rand allocId now).1 = none ↔
      eligiblePools st.pools plan = []) ∧
    (∀ a : AllocationRow, (allocateResource st cid plan rand allocId now).1 = some a →
      ∃ p : PoolEntry, p ∈ st.pools ∧ p.is_available = true ∧
        p.resource_type = planResourceType plan ∧
        (p.reserved_for_plan = some plan ∨ p.reserved_for_plan = none) ∧
        a.ip_address = p.ip_address ∧ a.port_start = p.port_start ∧
        a.port_end = p.port_end) ∧
    ((allocateResource st cid plan rand allocId now).1 = none →
      (allocateResource st cid plan rand allocId now).2 = st) ∧
    (∀ (sys : SysState) (ra wlOk : Bool) (email company : String),
      eligiblePools sys.crm.pools plan = [] →
      createCustomer sys ra wlOk email company plan cid rand allocId now =
        ((false, "No available resources for plan type"), sys)) := by
  refine ⟨?_, ?_, ?_, ?_⟩
  · cases hg : (eligiblePools st.pools plan).get?
        (rand % (eligiblePools st.pools plan).length) with
    | none =>
      simp only [allocateResource, hg]
      constructor
      · intro _
        rw [List.get?_eq_none] at hg
        by_contra hne
        have hpos : 0 < (eligiblePools st.pools plan).length :=
          List.length_pos.mpr hne
        exact absurd hg (by simpa using Nat.mod_lt rand hpos)
      · intro _
        trivial
    | some p =>
      simp only [allocateResource, hg]
      constructor
      · intro h
        exact absurd h (by simp)
      · intro h
        exact absurd (List.get?_mem hg) (by simp [h])
  · intro a ha
    cases hg : (eligiblePools st.pools plan).get?
        (rand % (eligiblePools st.pools plan).length) with
    | none =>
      simp only [allocateResource, hg] at ha
      exact Option.noConfusion ha
    | some p =>
      simp only [allocateResource, hg] at ha
      have hmem : p ∈ eligiblePools st.pools plan := List.get?_mem hg
      unfold eligiblePools at hmem
      rw [List.mem_filter] at hmem
      obtain ⟨hpool, hpred⟩ := hmem
      simp only [Bool.and_eq_true, Bool.or_eq_true, decide_eq_true_eq] at hpred
      injection ha with ha2
      subst ha2
      exact ⟨p, hpool, hpred.1.2, hpred.1.1, hpred.2, rfl, rfl, rfl⟩
  · intro h
    cases hg : (eligiblePools st.pools plan).get?
        (rand % (eligiblePools st.pools plan).length) with
    | none => simp only [allocateResource, hg]
    | some p =>
      simp only [allocateResource, hg] at h
      exact Option.noConfusion h
  · intro sys ra wlOk email company h
    have hel : eligiblePools
        ({ sys.crm with
            customers := newCustomerRow email company plan cid :: sys.crm.customers }).pools
        plan = [] := h
    simp [createCustomer, allocateResource, hel]

/-- C3 amended witness: an empty premium candidate set makes
`create_customer` fail with no state change even though an ip_only entry is
available. -/
theorem tier_selection_no_fallback_witness :
    createCustomer ⟨⟨[poolA], [], []⟩, ⟨[], []⟩⟩ false true "x@example.com" "" "premium"
        "cust_X" 0 7 0 =
      ((false, "No available resources for plan type"), ⟨⟨[poolA], [], []⟩, ⟨[], []⟩⟩) :=
  ((tier_selection_no_fallback ⟨[poolA], [], []⟩ "cust_X" "premium" 0 7 0).2.2.2
    ⟨⟨[poolA], [], []⟩, ⟨[], []⟩⟩ false true "x@example.com" "" (by decide))

/-- Shape of a successful `_allocate_resource`: the returned row heads the
allocations table, belongs to the requesting customer, is active, and
carries the 30-day lease. -/
theorem allocateResource_some (st : CrmState) (cid plan : String)
    (rand allocId now : Nat) (r : AllocationRow) (crm2 : CrmState)
    (h : allocateResource st cid plan rand allocId now = (some r, crm2)) :
    crm2.allocations = r :: st.allocations ∧ r.customer_id = cid ∧
      r.is_active = true ∧ r.expires_at = now + 30 * 86400 := by
  cases hg : (eligiblePools st.pools plan).get?
      (rand % (eligiblePools st.pools plan).length) with
  | none =>
    simp only [allocateResource, hg] at h
    exact absurd h (by simp)
  | some p =>
    simp only [allocateResource, hg] at h
    injection h with h1 h2
    injection h1 with h1
    subst h1
    subst h2
    exact ⟨rfl, rfl, rfl, rfl⟩

/-- Shape of a successful `add_ip`: the new row (active, expiring
`days * 86400` from now) heads the table, and the cache is warmed when Redis
is available. -/
theorem addIp_true (st : WlState) (ra dbOk : Bool) (ip cid plan : String)
    (rl days : Nat) (notes : String) (now : Nat)
    (h : (addIp st ra dbOk ip cid plan rl days notes now).1 = true) :
    (addIp st ra dbOk ip cid plan rl days notes now).2 =
      { table := { ip_address := ip, customer_id := cid, plan_type := plan,
                   rate_limit := rl, expires_at := now + days * 86400,
                   is_active := true, notes := notes } ::
                 (st.table.filter fun r => decide (r.ip_address ≠ ip)),
        cache := if ra then
                   aset st.cache ip (CacheVal.good
                     { customer_id := cid, plan_type := plan, rate_limit := rl,
                       expires_at := now + days * 86400 })
                 else st.cache } := by
  cases hc : (isValidIp ip && dbOk) with
  | false =>
    rw [addIp, hc] at h
    simp at h
  | true =>
    rw [addIp, hc]
    simp

/-- C7.  Rollback atomicity of provisioning: whenever `create_customer`
returns a failure — in particular when the whitelist mirror `add_ip` fails
after a pool entry was selected and an allocation row created — the whole
allocator transaction is rolled back (pools, allocations and customers are
exactly as before), and whenever it succeeds the committed allocation has a
matching active whitelist row, so there is never a committed allocation
without its admission entry. -/
theorem rollback_atomicity (st : SysState) (ra wlOk : Bool)
    (email company plan cid : String) (rand allocId now : Nat) :
    (∀ (msg : String) (st' : SysState),
      createCustomer st ra wlOk email company plan cid rand allocId now =
        ((false, msg), st') → st'.crm = st.crm) ∧
    (∀ (cidRet : String) (st' : SysState),
      createCustomer st ra wlOk email company plan cid rand allocId now =
        ((true, cidRet), st') →
      ∃ a : AllocationRow, st'.crm.allocations.head? = some a ∧
        a.customer_id = cid ∧ a.is_active = true ∧
        ∃ row : WhitelistRow, row ∈ st'.wl.table ∧ row.ip_address = a.ip_address ∧
          row.customer_id = cid ∧ row.is_active = true) := by
  cases halloc : allocateResource
      { st.crm with customers := newCustomerRow email company plan cid :: st.crm.customers }
      cid plan rand allocId now with
  | mk res crm2 =>
    cases res with
    | none =>
      constructor
      · intro msg st' h
        simp only [createCustomer, halloc] at h
        injection h with hp hs
        subst hs
        rfl
      · intro cidRet st' h
        simp only [createCustomer, halloc] at h
        injection h with hp hs
        injection hp with hb hm
        exact Bool.noConfusion hb
    | some r =>
      by_cases hadd : (addIp st.wl ra wlOk r.ip_address cid plan (rateLimitFor plan) 30
          ("Auto-allocated for " ++ email) now).1 = true
      · constructor
        · intro msg st' h
          simp only [createCustomer, halloc, hadd, if_true] at h
          injection h with hp hs
          injection hp with hb hm
          exact Bool.noConfusion hb
        · intro cidRet st' h
          simp only [createCustomer, halloc, hadd, if_true] at h
          injection h with hp hs
          subst hs
          obtain ⟨hallocs, hcid, hact, _⟩ :=
            allocateResource_some _ cid plan rand allocId now r crm2 halloc
          refine ⟨r, ?_, hcid, hact, ?_⟩
          · show crm2.allocations.head? = some r
            rw [hallocs]
            rfl
          · refine ⟨{ ip_address := r.ip_address, customer_id := cid, plan_type := plan,
                      rate_limit := rateLimitFor plan, expires_at := now + 30 * 86400,
                      is_active := true, notes := "Auto-allocated for " ++ email }, ?_, rfl, rfl, rfl⟩
            show _ ∈ ((addIp st.wl ra wlOk r.ip_address cid plan (rateLimitFor plan) 30
              ("Auto-allocated for " ++ email) now).2).table
            rw [addIp_true _ _ _ _ _ _ _ _ _ _ hadd]
            exact List.mem_cons_self _ _
      · constructor
        · intro msg st' h
          simp only [createCustomer, halloc, hadd, if_false] at h
          injection h with hp hs
          subst hs
          rfl
        · intro cidRet st' h
          simp only [createCustomer, halloc, hadd, if_false] at h
          injection h with hp hs
          injection hp with hb hm
          exact Bool.noConfusion hb

/-- C7 witness: with the whitelist durable store down, provisioning a basic
customer from a one-entry pool fails and leaves the allocator database
untouched. -/
theorem rollback_atomicity_witness :
    createCustomer ⟨⟨[poolA], [], []⟩, ⟨[], []⟩⟩ false false "w@example.com" "" "basic"
        "cust_W" 0 50 0 =
      ((false, "Failed to add to whitelist"), ⟨⟨[poolA], [], []⟩, ⟨[], []⟩⟩) ∧
    (createCustomer ⟨⟨[poolA], [], []⟩, ⟨[], []⟩⟩ false false "w@example.com" "" "basic"
        "cust_W" 0 50 0).2.crm = CrmState.mk [poolA] [] [] :=
  ⟨by decide,
   (rollback_atomicity ⟨⟨[poolA], [], []⟩, ⟨[], []⟩⟩ false false "w@example.com" "" "basic"
      "cust_W" 0 50 0).1 "Failed to add to whitelist" ⟨⟨[poolA], [], []⟩, ⟨[], []⟩⟩
     (by decide)⟩

/-- C9.  Allocate/admit round-trip: immediately after a successful
`create_customer` (durable stores healthy) that assigned an IP to the
customer, `is_ip_allowed` on that IP — at the same instant and under the
same cache availability — returns allowed with exactly the `customer_id`
and `plan_type` that were passed to `create_customer`. -/
theorem allocate_admit_round_trip (st : SysState) (ra : Bool)
    (email company plan cid : String) (rand allocId now : Nat) :
    ∀ (cidRet : String) (st' : SysState),
      createCustomer st ra true email company plan cid rand allocId now =
        ((true, cidRet), st') →
      cidRet = cid ∧
      ∃ (a : AllocationRow) (e : CacheEntry) (wl2 : WlState),
        st'.crm.allocations.head? = some a ∧
        isIpAllowed st'.wl ra true a.ip_address now = ((true, some e), wl2) ∧
        e.customer_id = cid ∧ e.plan_type = plan := by
  intro cidRet st' h
  cases halloc : allocateResource
      { st.crm with customers := newCustomerRow email company plan cid :: st.crm.customers }
      cid plan rand allocId now with
  | mk res crm2 =>
    cases res with
    | none =>
      simp only [createCustomer, halloc] at h
      injection h with hp hs
      injection hp with hb hm
      exact Bool.noConfusion hb
    | some r =>
      by_cases hadd : (addIp st.wl ra true r.ip_address cid plan (rateLimitFor plan) 30
          ("Auto-allocated for " ++ email) now).1 = true
      · simp only [createCustomer, halloc, hadd, if_true] at h
        injection h with hp hs
        injection hp with hb hm
        subst hs
        subst hm
        refine ⟨rfl, ?_⟩
        obtain ⟨hallocs, _, _, _⟩ :=
          allocateResource_some _ cid plan rand allocId now r crm2 halloc
        have hwl := addIp_true st.wl ra true r.ip_address cid plan (rateLimitFor plan) 30
          ("Auto-allocated for " ++ email) now hadd
        refine ⟨r, { customer_id := cid, plan_type := plan,
                     rate_limit := rateLimitFor plan, expires_at := now + 30 * 86400 },
                (addIp st.wl ra true r.ip_address cid plan (rateLimitFor plan) 30
                   ("Auto-allocated for " ++ email) now).2, ?_, ?_, rfl, rfl⟩
        · show crm2.allocations.head? = some r
          rw [hallocs]
          rfl
        · rw [hwl]
          cases ra with
          | false =>
            have hfind : List.find?
                (fun r' => decide (r'.ip_address = r.ip_address) && r'.is_active)
                ({ ip_address := r.ip_address, customer_id := cid, plan_type := plan,
                   rate_limit := rateLimitFor plan, expires_at := now + 30 * 86400,
                   is_active := true, notes := "Auto-allocated for " ++ email } ::
                 (st.wl.table.filter fun r' => decide (r'.ip_address ≠ r.ip_address))) =
                some { ip_address := r.ip_address, customer_id := cid, plan_type := plan,
                       rate_limit := rateLimitFor plan, expires_at := now + 30 * 86400,
                       is_active := true, notes := "Auto-allocated for " ++ email } :=
              List.find?_cons_of_pos _ (by simp)
            have hlt : now < now + 30 * 86400 := by omega
            simp [isIpAllowed, cacheValidHit, hfind, hlt]
          | true =>
            have hch : cacheValidHit
                (aset st.wl.cache r.ip_address (CacheVal.good
                  { customer_id := cid, plan_type := plan,
                    rate_limit := rateLimitFor plan, expires_at := now + 30 * 86400 }))
                true r.ip_address now =
                some { customer_id := cid, plan_type := plan,
                       rate_limit := rateLimitFor plan, expires_at := now + 30 * 86400 } := by
              have hlt : now < now + 30 * 86400 := by omega
              simp [cacheValidHit, alookup_aset_self, hlt]
            simp [isIpAllowed, hch]
      · simp only [createCustomer, halloc, hadd, if_false] at h
        injection h with hp hs
        injection hp with hb hm
        exact Bool.noConfusion hb

/-- C9 witness: provisioning `cust_R` on the basic pool entry `10.0.1.1` and
immediately admitting the allocated IP yields the same customer and plan. -/
theorem allocate_admit_round_trip_witness :
    "cust_R" = "cust_R" ∧
    ∃ (a : AllocationRow) (e : CacheEntry) (wl2 : WlState),
      ((createCustomer ⟨⟨[poolA], [], []⟩, ⟨[], []⟩⟩ false true "r@example.com" "" "basic"
          "cust_R" 0 60 0).2).crm.allocations.head? = some a ∧
      isIpAllowed ((createCustomer ⟨⟨[poolA], [], []⟩, ⟨[], []⟩⟩ false true "r@example.com"
          "" "basic" "cust_R" 0 60 0).2).wl false true a.ip_address 0 = ((true, some e), wl2) ∧
      e.customer_id = "cust_R" ∧ e.plan_type = "basic" :=
  allocate_admit_round_trip ⟨⟨[poolA], [], []⟩, ⟨[], []⟩⟩ false "r@example.com" "" "basic"
    "cust_R" 0 60 0 "cust_R"
    ((createCustomer ⟨⟨[poolA], [], []⟩, ⟨[], []⟩⟩ false true "r@example.com" "" "basic"
        "cust_R" 0 60 0).2) (by decide)

/-- Unfolding a `List.range` map of increment-then-compare verdicts by one
step. -/
theorem range_succ_map_decide (c L n : Nat) :
    (List.range (n + 1)).map (fun k => decide (c + k ≤ L)) =
      decide (c ≤ L) :: (List.range n).map (fun k => decide (c + 1 + k ≤ L)) := by
  rw [List.range_succ_eq_map, List.map_cons, List.map_map]
  simp only [List.cons.injEq]
  refine ⟨by simp, List.map_congr_left fun k hk => ?_⟩
  simp only [Function.comp_apply, decide_eq_decide]
  omega

/-- Steady-state run of the SQLite branch of `check_rate_limit`: while every
request falls within 60 seconds of the stored `window_start`, each call
increments the count and is allowed iff the new count is within the limit. -/
theorem run_db_steady (ip : String) (L : Nat) :
    ∀ (ts : List Nat) (st : RlState) (c s : Nat),
      alookup st.dbRows ip = some (c, s) →
      (∀ t ∈ ts, t - s ≤ 60) →
      (rateResults false st ip L ts).1 =
        (List.range ts.length).map (fun k => decide (c + 1 + k ≤ L)) ∧
      alookup ((rateResults false st ip L ts).2).dbRows ip = some (c + ts.length, s) := by
  intro ts
  induction ts with
  | nil =>
    intro st c s h _
    simp [rateResults, h]
  | cons t ts ih =>
    intro st c s h hw
    have ht : ¬ t - s > 60 := by
      have := hw t (List.mem_cons_self _ _)
      omega
    have hstep : checkRateLimit false st ip L t =
        (decide (c + 1 ≤ L), { st with dbRows := aset st.dbRows ip (c + 1, s) }) := by
      have hupd : dbRateUpdate (alookup st.dbRows ip) t = (c + 1, s) := by
        rw [h]
        simp [dbRateUpdate, ht]
      simp [checkRateLimit, hupd]
    obtain ⟨ih1, ih2⟩ := ih { st with dbRows := aset st.dbRows ip (c + 1, s) } (c + 1) s
      (alookup_aset_self _ _ _) (fun t' ht' => hw t' (List.mem_cons_of_mem _ ht'))
    constructor
    · simp only [rateResults, hstep, ih1, List.length_cons]
      rw [range_succ_map_decide]
    · simp only [rateResults, hstep, List.length_cons]
      rw [show c + (ts.length + 1) = c + 1 + ts.length from by omega]
      exact ih2

/-- Steady-state run of the Redis branch of `check_rate_limit`: while the
`rate_limit:{ip}` key has not expired, each `INCR` bumps the count and the
request is allowed iff the new count is within the limit. -/
theorem run_redis_steady (ip : String) (L : Nat) :
    ∀ (ts : List Nat) (st : RlState) (c ex : Nat),
      alookup st.redisCounters ip = some (c, ex) →
      (∀ t ∈ ts, t < ex) →
      (rateResults true st ip L ts).1 =
        (List.range ts.length).map (fun k => decide (c + 1 + k ≤ L)) ∧
      alookup ((rateResults true st ip L ts).2).redisCounters ip =
        some (c + ts.length, ex) := by
  intro ts
  induction ts with
  | nil =>
    intro st c ex h _
    simp [rateResults, h]
  | cons t ts ih =>
    intro st c ex h hw
    have ht : t < ex := hw t (List.mem_cons_self _ _)
    have hstep : checkRateLimit true st ip L t =
        (decide (c + 1 ≤ L),
         { st with redisCounters := aset st.redisCounters ip (c + 1, ex) }) := by
      have hincr : redisIncr st.redisCounters ip t =
          (c + 1, aset st.redisCounters ip (c + 1, ex)) := by
        simp [redisIncr, h, ht]
      simp [checkRateLimit, hincr]
    obtain ⟨ih1, ih2⟩ := ih { st with redisCounters := aset st.redisCounters ip (c + 1, ex) }
      (c + 1) ex (alookup_aset_self _ _ _) (fun t' ht' => hw t' (List.mem_cons_of_mem _ ht'))
    constructor
    · simp only [rateResults, hstep, ih1, List.length_cons]
      rw [range_succ_map_decide]
    · simp only [rateResults, hstep, List.length_cons]
      rw [show c + (ts.length + 1) = c + 1 + ts.length from by omega]
      exact ih2

/-- C5.  Rate-limit boundary, for both the Redis and the SQLite branch of
`check_rate_limit`: starting from empty state, for calls at `t0 :: ts` that
all fall inside the 60-second window opened at `t0`, the k-th call is
allowed iff `k + 1 ≤ L` (increment-then-compare) — so the first `L` calls
are allowed and the (L+1)-th is denied; and once a later call arrives with
`now - t0 > 60` the window resets wholesale: that call is counted as count 1
and allowed. -/
theorem rate_limit_window_boundary (ra : Bool) (ip : String) (L t0 : Nat)
    (ts : List Nat) (hL : 1 ≤ L) (hwin : ∀ t ∈ ts, t < t0 + 60) :
    (rateResults ra ⟨[], []⟩ ip L (t0 :: ts)).1 =
      (List.range (ts.length + 1)).map (fun k => decide (k + 1 ≤ L)) ∧
    ∀ t', t' - t0 > 60 →
      (checkRateLimit ra (rateResults ra ⟨[], []⟩ ip L (t0 :: ts)).2 ip L t').1 = true ∧
      currentCount ra (checkRateLimit ra (rateResults ra ⟨[], []⟩ ip L (t0 :: ts)).2 ip L t').2
          ip = some 1 := by
  have hsh : (List.range (ts.length + 1)).map (fun k => decide (k + 1 ≤ L)) =
      (List.range (ts.length + 1)).map (fun k => decide (1 + k ≤ L)) :=
    List.map_congr_left fun k _ => by
      rw [decide_eq_decide]
      omega
  cases ra with
  | false =>
    have hstep0 : checkRateLimit false ⟨[], []⟩ ip L t0 =
        (decide (1 ≤ L), ⟨[], aset [] ip (1, t0)⟩) := rfl
    obtain ⟨h1, h2⟩ := run_db_steady ip L ts ⟨[], aset [] ip (1, t0)⟩ 1 t0
      (alookup_aset_self _ _ _) (fun t ht => by have := hwin t ht; omega)
    constructor
    · rw [hsh, range_succ_map_decide]
      simp only [rateResults, hstep0, h1]
    · intro t' ht'
      have hstF : (rateResults false ⟨[], []⟩ ip L (t0 :: ts)).2 =
          (rateResults false ⟨[], aset [] ip (1, t0)⟩ ip L ts).2 := by
        simp only [rateResults, hstep0]
      rw [hstF]
      have hupd : dbRateUpdate
          (alookup ((rateResults false ⟨[], aset [] ip (1, t0)⟩ ip L ts).2).dbRows ip) t' =
          (1, t') := by
        rw [h2]
        simp [dbRateUpdate, ht']
      constructor
      · simp [checkRateLimit, hupd, hL]
      · simp [checkRateLimit, hupd, currentCount, alookup_aset_self]
  | true =>
    have hstep0 : checkRateLimit true ⟨[], []⟩ ip L t0 =
        (decide (1 ≤ L), ⟨aset [] ip (1, t0 + 60), []⟩) := rfl
    obtain ⟨h1, h2⟩ := run_redis_steady ip L ts ⟨aset [] ip (1, t0 + 60), []⟩ 1 (t0 + 60)
      (alookup_aset_self _ _ _) (fun t ht => hwin t ht)
    constructor
    · rw [hsh, range_succ_map_decide]
      simp only [rateResults, hstep0, h1]
    · intro t' ht'
      have hstF : (rateResults true ⟨[], []⟩ ip L (t0 :: ts)).2 =
          (rateResults true ⟨aset [] ip (1, t0 + 60), []⟩ ip L ts).2 := by
        simp only [rateResults, hstep0]
      rw [hstF]
      have hnl : ¬ t' < t0 + 60 := by omega
      have hincr : redisIncr
          ((rateResults true ⟨aset [] ip (1, t0 + 60), []⟩ ip L ts).2).redisCounters ip t' =
          (1, aset ((rateResults true ⟨aset [] ip (1, t0 + 60), []⟩ ip L ts).2).redisCounters
                ip (1, t' + 60)) := by
        simp [redisIncr, h2, hnl]
      constructor
      · simp [checkRateLimit, hincr, hL]
      · simp [checkRateLimit, hincr, currentCount, alookup_aset_self]

/-- C5 witness: with limit 2, the calls at times 0, 10, 20 give allow, allow,
deny, and a call at time 61 after the window rolls over is allowed again. -/
theorem rate_limit_window_boundary_witness :
    (rateResults false ⟨[], []⟩ "1.2.3.4" 2 [0, 10, 20]).1 = [true, true, false] ∧
    (checkRateLimit false (rateResults false ⟨[], []⟩ "1.2.3.4" 2 [0, 10, 20]).2
        "1.2.3.4" 2 61).1 = true := by
  have h := rate_limit_window_boundary false "1.2.3.4" 2 0 [10, 20] (by decide) (by decide)
  exact ⟨by rw [h.1]; rfl, (h.2 61 (by decide)).1⟩

/-- C8 amended.  When the cache is unavailable, the two implementations
diverge: `proxy-test-app.check_rate_limit` still enforces the limit through
the `rate_limits` table — a request beyond the limit inside the current
60-second window is denied — while `ultimate_fastping_app.check_rate_limit`
returns allowed unconditionally and leaves its state untouched, i.e. rate
limiting IS skipped there in cache-unavailable mode. -/
theorem degraded_rate_limit_amended :
    (∀ (st : RlState) (ip : String) (L now c s : Nat),
      alookup st.dbRows ip = some (c, s) → now - s ≤ 60 → L ≤ c →
      (checkRateLimit false st ip L now).1 = false) ∧
    (∀ (rc : List (String × Nat × Nat)) (ip : String) (L now : Nat),
      ultimateCheckRateLimit false rc ip L now = (true, rc)) := by
  constructor
  · intro st ip L now c s h hw hc
    have hng : ¬ now - s > 60 := by omega
    have hupd : dbRateUpdate (alookup st.dbRows ip) now = (c + 1, s) := by
      rw [h]
      simp [dbRateUpdate, hng]
    have hgt : ¬ c + 1 ≤ L := by omega
    simp [checkRateLimit, hupd, hgt]
  · intro rc ip L now
    rfl

/-- C8 amended witness: the SQLite fallback denies the second request under
limit 1 inside one window, while the ultimate app allows everything with no
Redis. -/
theorem degraded_rate_limit_amended_witness :
    (checkRateLimit false ⟨[], [("1.2.3.4", 1, 0)]⟩ "1.2.3.4" 1 30).1 = false ∧
    ultimateCheckRateLimit false [] "8.8.8.8" 5 0 = (true, []) :=
  ⟨degraded_rate_limit_amended.1 ⟨[], [("1.2.3.4", 1, 0)]⟩ "1.2.3.4" 1 30 1 0
     (by decide) (by decide) (by decide),
   degraded_rate_limit_amended.2 [] "8.8.8.8" 5 0⟩

end ProxyTestApp
